import Mathlib

/-!
Verification of the solar-panel selection core of the detection pipeline.

The development shallowly embeds the two selection/orchestration modules:

* `geometry.py` (`find_best_panel`, `get_meters_per_pixel`,
  `buffer_radius_to_pixels`) — the scoring selector of the two-stage variant;
* `detector.py` (`SolarDetector._find_best_match`,
  `SolarDetector._execute_pipeline`, `SolarDetector._predict`) and
  `utils.py` (`calculate_meters_per_pixel`,
  `calculate_radius_from_area_sqft`) — the max-overlap matcher and the
  four-stage fallback orchestrator.

Geometric primitives (polygon/disk intersection area, centroid distance,
polygon area) come from an external geometry library in the source; the
embedding therefore represents each candidate by the values those primitives
produce for it relative to the buffer under consideration, and formalises how
the selector composes them.  Exact rational arithmetic stands in for Python
floats in the selector; the latitude/resolution conversions, which use
`math.cos`, `math.sqrt` and `math.pi`, are embedded over the reals.
-/

/-- Abstract view of one entry of the `polygons` list consumed by
`find_best_panel` in `geometry.py` (`item[0]` is the shapely polygon,
`item[1]` its confidence).  The fields record exactly the geometry-library
quantities the selector reads for a fixed buffer disk:
`intersects` is `buffer_circle.intersects(poly)`,
`overlap` is `buffer_circle.intersection(poly).area`,
`centroidDist` is `Point(center_px).distance(poly.centroid)`,
`area` is `poly.area`, and `conf` is the confidence. -/
structure PanelPoly where
  intersects : Bool
  overlap : ℚ
  centroidDist : ℚ
  area : ℚ
  conf : ℚ
  deriving DecidableEq

/-- Score assigned in `geometry.py` lines 87-93:
`size_bonus = min(panel_area / 10000, 0.5)`;
`score = overlap_area * (1 + size_bonus) * conf`. -/
def panelScore (p : PanelPoly) : ℚ :=
  p.overlap * (1 + min (p.area / 10000) (1 / 2)) * p.conf

/-- Filtering steps of `find_best_panel` (`geometry.py` lines 66-85): skip a
polygon when the buffer circle does not intersect it, when
`overlap_area < min_overlap`, or when the centroid distance exceeds
`buffer_radius_px * 1.5`.  A candidate is kept exactly when none of the three
`continue` branches fires. -/
def keepsPanel (radius minOverlap : ℚ) (p : PanelPoly) : Bool :=
  p.intersects && decide (¬ p.overlap < minOverlap) &&
    decide (¬ p.centroidDist > radius * 1.5)

/-- Earliest maximal-score element of `c :: cs` under `panelScore`; used to
describe the head of the stable descending sort performed by
`candidates.sort(key=lambda x: x[score], reverse=True)`. -/
def pickBest (c : PanelPoly) (cs : List PanelPoly) : PanelPoly :=
  match cs with
  | [] => c
  | d :: ds =>
    let m := pickBest d ds
    if panelScore m ≤ panelScore c then c else m

/-- Stable descending sort by score (`geometry.py` line 112).  Python's
`list.sort` is stable also with `reverse=True`; insertion sort with the
"score at least" relation reproduces that order. -/
def sortCandidates (l : List PanelPoly) : List PanelPoly :=
  l.insertionSort fun a b => panelScore b ≤ panelScore a

/-- Embedding of `find_best_panel` (`geometry.py` lines 39-118): filter the
candidates, sort the survivors by descending score, and return the head
together with its confidence and overlap, or `(none, 0, 0)` when no candidate
survives (which covers the empty-input early return as well). -/
def find_best_panel (polys : List PanelPoly) (radius : ℚ)
    (minOverlap : ℚ := 10) : Option PanelPoly × ℚ × ℚ :=
  match sortCandidates (polys.filter (keepsPanel radius minOverlap)) with
  | [] => (none, 0, 0)
  | best :: _ => (some best, best.conf, best.overlap)

/-- Abstract view of one detection box handled by
`SolarDetector._find_best_match` (`detector.py` lines 164-175).  The matcher
only reads `calculate_intersection_area(data[bbox], center, radius)`; the two
fields record that value for the narrow (1200 sq.ft) and the wide
(2400 sq.ft) buffer disk of the sample. -/
structure DBox where
  overlapNarrow : ℚ
  overlapWide : ℚ
  deriving DecidableEq

/-- Loop of `_find_best_match`: starting from `best_idx = -1` and
`max_overlap = 0.0`, replace the state whenever the current overlap is
strictly greater (`overlap > max_overlap`). -/
def fbmLoop (i : ℕ) (bestIdx : Int) (maxOverlap : ℚ) :
    List ℚ → Int × ℚ
  | [] => (bestIdx, maxOverlap)
  | o :: rest =>
    if maxOverlap < o then fbmLoop (i + 1) (i : Int) o rest
    else fbmLoop (i + 1) bestIdx maxOverlap rest

/-- Embedding of `SolarDetector._find_best_match` applied to the list of
per-box intersection areas: returns `(best_idx, max_overlap)`. -/
def find_best_match (overlaps : List ℚ) : Int × ℚ :=
  fbmLoop 0 (-1) 0 overlaps

/-- Intersection areas of a box list against the narrow (1200 sq.ft) disk. -/
def narrowOverlaps (bs : List DBox) : List ℚ :=
  bs.map DBox.overlapNarrow

/-- Intersection areas of a box list against the wide (2400 sq.ft) disk. -/
def wideOverlaps (bs : List DBox) : List ℚ :=
  bs.map DBox.overlapWide

/-- Image variant on which `SolarDetector._predict` is run: the original
image or the saturation-enhanced one (`enhance_saturation(img, 1.5)`). -/
inductive Variant where
  | primary
  | enhanced
  deriving DecidableEq

/-- Value of the `method` field of the pipeline result
(`detector.py`: `'initial_1200'`, `'saturated_1200'`, `'initial_2400'`,
`'saturated_2400'`, or the initial `'none'`). -/
inductive Stage where
  | initial1200
  | saturated1200
  | initial2400
  | saturated2400
  | none
  deriving DecidableEq

/-- Fields of the `_execute_pipeline` result dictionary that the selection
logic determines (`has_solar`, `method`, `selected_idx`, `all_boxes`); the
remaining fields (areas, distances, confidences) are derived reporting data
read off the winning box. -/
structure PipeResult where
  hasSolar : Bool
  method : Stage
  selectedIdx : Int
  allBoxes : List DBox
  deriving DecidableEq

/-- Embedding of `SolarDetector._execute_pipeline` (`detector.py` lines
68-122), instrumented with the list of `_predict` invocations it performs
(the trace, second component).  `det v` is the candidate-box list the
Detector produces on variant `v`.  The four stages run in the fixed source
order — original/narrow, enhanced/narrow, original/wide, enhanced/wide —
each `return` short-circuiting the rest; `boxes` is computed once before
stage 1 and `satBoxes` once before stage 2, and stages 3 and 4 reuse those
values.  When every stage fails, `all_boxes` keeps the original-variant pool
when it is nonempty (`boxes if boxes else sat_boxes`). -/
def executePipeline (det : Variant → List DBox) :
    PipeResult × List Variant :=
  let boxes := det .primary
  let r1 := find_best_match (narrowOverlaps boxes)
  if r1.1 ≠ -1 then
    (⟨true, .initial1200, r1.1, boxes⟩, [.primary])
  else
    let satBoxes := det .enhanced
    let r2 := find_best_match (narrowOverlaps satBoxes)
    if r2.1 ≠ -1 then
      (⟨true, .saturated1200, r2.1, satBoxes⟩, [.primary, .enhanced])
    else
      let r3 := find_best_match (wideOverlaps boxes)
      if r3.1 ≠ -1 then
        (⟨true, .initial2400, r3.1, boxes⟩, [.primary, .enhanced])
      else
        let r4 := find_best_match (wideOverlaps satBoxes)
        if r4.1 ≠ -1 then
          (⟨true, .saturated2400, r4.1, satBoxes⟩, [.primary, .enhanced])
        else
          (⟨false, .none, -1, if boxes.isEmpty then satBoxes else boxes⟩,
            [.primary, .enhanced])

/-- Whether the per-stage matcher finds a box for a given stage, i.e. the
`best_idx != -1` test of `_execute_pipeline`. -/
def stageSucceeds (det : Variant → List DBox) : Stage → Bool
  | .initial1200 => (find_best_match (narrowOverlaps (det .primary))).1 ≠ -1
  | .saturated1200 => (find_best_match (narrowOverlaps (det .enhanced))).1 ≠ -1
  | .initial2400 => (find_best_match (wideOverlaps (det .primary))).1 ≠ -1
  | .saturated2400 => (find_best_match (wideOverlaps (det .enhanced))).1 ≠ -1
  | .none => false

/-- The non-terminal stages in their fixed priority order. -/
def stageList : List Stage :=
  [.initial1200, .saturated1200, .initial2400, .saturated2400]

/-- Embedding of `_execute_pipeline` when the Detector may fail: `_predict`
runs `self.model(img, ...)` with no surrounding `try`/`except` (`detector.py`
lines 124-162), and `_execute_pipeline` and `detect` install no handler
either, so a raised exception propagates out of the per-sample computation.
`det v` is accordingly `Except ε (List DBox)` and each failure aborts the
whole run with that error. -/
def executePipelineE {ε : Type} (det : Variant → Except ε (List DBox)) :
    Except ε PipeResult :=
  match det .primary with
  | .error e => .error e
  | .ok boxes =>
    let r1 := find_best_match (narrowOverlaps boxes)
    if r1.1 ≠ -1 then .ok ⟨true, .initial1200, r1.1, boxes⟩
    else
      match det .enhanced with
      | .error e => .error e
      | .ok satBoxes =>
        let r2 := find_best_match (narrowOverlaps satBoxes)
        if r2.1 ≠ -1 then .ok ⟨true, .saturated1200, r2.1, satBoxes⟩
        else
          let r3 := find_best_match (wideOverlaps boxes)
          if r3.1 ≠ -1 then .ok ⟨true, .initial2400, r3.1, boxes⟩
          else
            let r4 := find_best_match (wideOverlaps satBoxes)
            if r4.1 ≠ -1 then .ok ⟨true, .saturated2400, r4.1, satBoxes⟩
            else
              .ok ⟨false, .none, -1,
                if boxes.isEmpty then satBoxes else boxes⟩

/-- Embedding of `get_meters_per_pixel` (`geometry.py` lines 14-20):
`156543.03392 * math.cos(math.radians(lat)) / (2 ** zoom) / scale`, with
`math.radians(lat) = lat * pi / 180`.  The source performs no domain check:
the formula is returned for every latitude. -/
noncomputable def get_meters_per_pixel (lat : ℝ) (zoom : ℕ) (scale : ℝ) : ℝ :=
  156543.03392 * Real.cos (lat * Real.pi / 180) / 2 ^ zoom / scale

/-- Embedding of `calculate_meters_per_pixel` (`utils.py` lines 16-22):
`mpp = (156543.03392 * cos(lat_rad)) / (2 ** zoom)` then `mpp / scale`.
Also unchecked. -/
noncomputable def calculate_meters_per_pixel (lat : ℝ) (zoom : ℕ)
    (scale : ℝ) : ℝ :=
  (156543.03392 * Real.cos (lat * Real.pi / 180) / 2 ^ zoom) / scale

/-- Embedding of `buffer_radius_to_pixels` (`geometry.py` lines 23-36):
`area_sqm = buffer_sqft * sqft_to_sqm`; `radius_m = sqrt(area_sqm / pi)`;
result `radius_m / get_meters_per_pixel(lat, zoom, scale)`. -/
noncomputable def buffer_radius_to_pixels (buffer_sqft sqft_to_sqm lat : ℝ)
    (zoom : ℕ) (scale : ℝ) : ℝ :=
  Real.sqrt (buffer_sqft * sqft_to_sqm / Real.pi) /
    get_meters_per_pixel lat zoom scale

/-- Embedding of `calculate_radius_from_area_sqft` (`utils.py` lines 25-32):
`area_sqm = area_sqft * 0.092903`; `radius_m = sqrt(area_sqm / pi)`;
result `radius_m / meters_per_pixel`. -/
noncomputable def calculate_radius_from_area_sqft (area_sqft mpp : ℝ) : ℝ :=
  Real.sqrt (area_sqft * 0.092903 / Real.pi) / mpp

/-! ### Properties of the scoring selector -/

/-- Unfolding of the three filter conditions. -/
lemma keepsPanel_iff {radius minOverlap : ℚ} {p : PanelPoly} :
    keepsPanel radius minOverlap p = true ↔
      p.intersects = true ∧ minOverlap ≤ p.overlap ∧
        p.centroidDist ≤ radius * 1.5 := by
  simp [keepsPanel, not_lt, and_assoc]

/-- The head of the stable descending sort is the earliest maximal-score
candidate. -/
lemma sortCandidates_cons_head (cs : List PanelPoly) :
    ∀ c, (sortCandidates (c :: cs)).head? = some (pickBest c cs) := by
  induction cs with
  | nil => intro c; rfl
  | cons d ds ih =>
    intro c
    have h := ih d
    cases hs : sortCandidates (d :: ds) with
    | nil => rw [hs] at h; simp at h
    | cons m tail =>
      rw [hs] at h
      simp only [List.head?, Option.some.injEq] at h
      show (List.orderedInsert _ c (sortCandidates (d :: ds))).head? = _
      rw [hs]
      simp only [List.orderedInsert, pickBest, ← h]
      split
      · rfl
      · rfl

/-- `pickBest` returns an element of the list. -/
lemma pickBest_mem (c : PanelPoly) (cs : List PanelPoly) :
    pickBest c cs ∈ c :: cs := by
  induction cs generalizing c with
  | nil => simp [pickBest]
  | cons d ds ih =>
    simp only [pickBest]
    split
    · simp
    · have hm := ih d
      simp only [List.mem_cons] at hm ⊢
      tauto

/-- `pickBest` has maximal score in the list. -/
lemma le_panelScore_pickBest (c : PanelPoly) (cs : List PanelPoly) :
    ∀ x ∈ c :: cs, panelScore x ≤ panelScore (pickBest c cs) := by
  induction cs generalizing c with
  | nil =>
    intro x hx
    simp only [List.mem_singleton] at hx
    subst hx
    exact le_refl _
  | cons d ds ih =>
    intro x hx
    simp only [pickBest]
    split
    · rename_i h
      rcases List.mem_cons.1 hx with rfl | hx'
      · exact le_refl _
      · exact (ih d x hx').trans h
    · rename_i h
      push_neg at h
      rcases List.mem_cons.1 hx with rfl | hx'
      · exact h.le
      · exact ih d x hx'

/-- Every element strictly before `pickBest` in the list has strictly
smaller score: the selection is stable (earliest maximum wins). -/
lemma pickBest_split (c : PanelPoly) (cs : List PanelPoly) :
    ∃ pre post, c :: cs = pre ++ pickBest c cs :: post ∧
      ∀ x ∈ pre, panelScore x < panelScore (pickBest c cs) := by
  induction cs generalizing c with
  | nil => exact ⟨[], [], rfl, by simp⟩
  | cons d ds ih =>
    simp only [pickBest]
    split
    · exact ⟨[], d :: ds, rfl, by simp⟩
    · rename_i h
      push_neg at h
      obtain ⟨pre, post, heq, hpre⟩ := ih d
      refine ⟨c :: pre, post, ?_, ?_⟩
      · rw [List.cons_append, ← heq]
      · intro x hx
        rcases List.mem_cons.1 hx with rfl | hx'
        · exact h
        · exact hpre x hx'

/-- A returned panel is the head of the sorted survivor list. -/
lemma find_best_panel_some {polys : List PanelPoly} {radius minOverlap : ℚ}
    {b : PanelPoly} (h : (find_best_panel polys radius minOverlap).1 = some b) :
    ∃ c cs, polys.filter (keepsPanel radius minOverlap) = c :: cs ∧
      b = pickBest c cs := by
  unfold find_best_panel at h
  cases hf : polys.filter (keepsPanel radius minOverlap) with
  | nil => rw [hf] at h; simp [sortCandidates, List.insertionSort] at h
  | cons c cs =>
    rw [hf] at h
    have hh := sortCandidates_cons_head cs c
    cases hs : sortCandidates (c :: cs) with
    | nil => rw [hs] at hh; simp at hh
    | cons m t =>
      rw [hs] at h hh
      simp only [List.head?, Option.some.injEq] at h hh
      exact ⟨c, cs, rfl, by rw [← h, hh]⟩

/-- Main characterisation of `find_best_panel`: a returned candidate is a
survivor of the three filters, has maximal score among the survivors, and
every survivor listed before it scores strictly less. -/
lemma find_best_panel_spec {polys : List PanelPoly} {radius minOverlap : ℚ}
    {b : PanelPoly} (h : (find_best_panel polys radius minOverlap).1 = some b) :
    b ∈ polys.filter (keepsPanel radius minOverlap) ∧
    (∀ c ∈ polys.filter (keepsPanel radius minOverlap),
        panelScore c ≤ panelScore b) ∧
    ∃ pre post, polys.filter (keepsPanel radius minOverlap) = pre ++ b :: post ∧
      ∀ x ∈ pre, panelScore x < panelScore b := by
  obtain ⟨c, cs, hf, rfl⟩ := find_best_panel_some h
  refine ⟨?_, ?_, ?_⟩
  · rw [hf]; exact pickBest_mem c cs
  · rw [hf]; exact le_panelScore_pickBest c cs
  · rw [hf]; exact pickBest_split c cs

/-! ### Properties of the max-overlap matcher -/

/-- Invariant of the `_find_best_match` loop: either no update fires (every
overlap is at most the incoming maximum) or the final state points at an
element of the list that strictly exceeds the incoming maximum, is maximal
over the whole list, and strictly exceeds every element before it. -/
lemma fbmLoop_spec (l : List ℚ) :
    ∀ (i : ℕ) (bi : Int) (m : ℚ),
      (fbmLoop i bi m l = (bi, m) ∧ ∀ o ∈ l, o ≤ m) ∨
      (∃ j o, l.get? j = some o ∧
        fbmLoop i bi m l = (((i + j : ℕ) : Int), o) ∧ m < o ∧
        (∀ x ∈ l, x ≤ o) ∧
        ∀ k x, k < j → l.get? k = some x → x < o) := by
  induction l with
  | nil =>
    intro i bi m
    left
    exact ⟨rfl, by simp⟩
  | cons o rest ih =>
    intro i bi m
    by_cases hmo : m < o
    · simp only [fbmLoop, if_pos hmo]
      rcases ih (i + 1) (i : Int) o with ⟨heq, hall⟩ |
        ⟨j', o', hget, heq, hlt, hmax, hbefore⟩
      · right
        refine ⟨0, o, rfl, ?_, hmo, ?_, ?_⟩
        · rw [heq]; norm_num
        · intro x hx
          rcases List.mem_cons.1 hx with rfl | hx'
          · exact le_refl _
          · exact hall x hx'
        · intro k x hk
          omega
      · right
        refine ⟨j' + 1, o', hget, ?_, hmo.trans hlt, ?_, ?_⟩
        · rw [heq]
          have hidx : i + 1 + j' = i + (j' + 1) := by omega
          rw [hidx]
        · intro x hx
          rcases List.mem_cons.1 hx with rfl | hx'
          · exact hlt.le
          · exact hmax x hx'
        · intro k x hk hkget
          cases k with
          | zero =>
            simp only [List.get?] at hkget
            cases hkget
            exact hlt
          | succ k' =>
            exact hbefore k' x (by omega) hkget
    · push_neg at hmo
      simp only [fbmLoop, if_neg (not_lt.2 hmo)]
      rcases ih (i + 1) bi m with ⟨heq, hall⟩ |
        ⟨j', o', hget, heq, hlt, hmax, hbefore⟩
      · left
        refine ⟨heq, ?_⟩
        intro x hx
        rcases List.mem_cons.1 hx with rfl | hx'
        · exact hmo
        · exact hall x hx'
      · right
        refine ⟨j' + 1, o', hget, ?_, hlt, ?_, ?_⟩
        · rw [heq]
          have hidx : i + 1 + j' = i + (j' + 1) := by omega
          rw [hidx]
        · intro x hx
          rcases List.mem_cons.1 hx with rfl | hx'
          · exact (hmo.trans_lt hlt).le
          · exact hmax x hx'
        · intro k x hk hkget
          cases k with
          | zero =>
            simp only [List.get?] at hkget
            cases hkget
            exact lt_of_le_of_lt hmo hlt
          | succ k' =>
            exact hbefore k' x (by omega) hkget

/-- `_find_best_match` reports no match exactly when no overlap is strictly
positive. -/
lemma find_best_match_eq_neg_one_iff (l : List ℚ) :
    (find_best_match l).1 = -1 ↔ ∀ o ∈ l, o ≤ 0 := by
  constructor
  · intro h o ho
    rcases fbmLoop_spec l 0 (-1) 0 with ⟨_, hall⟩ | ⟨j, o', _, heq, _, hmax, _⟩
    · exact hall o ho
    · exfalso
      rw [show find_best_match l = fbmLoop 0 (-1) 0 l from rfl, heq] at h
      simp only [Prod.fst] at h
      omega
  · intro h
    rcases fbmLoop_spec l 0 (-1) 0 with ⟨heq, _⟩ | ⟨j, o', hget, heq, hlt, _, _⟩
    · rw [show find_best_match l = fbmLoop 0 (-1) 0 l from rfl, heq]
    · exfalso
      have hmem : o' ∈ l := List.get?_mem hget
      exact absurd (h o' hmem) (not_le.2 hlt)

/-- When `_find_best_match` reports a match, the returned index addresses a
list element whose overlap is the returned maximum, is strictly positive, is
maximal over the list, and strictly exceeds every earlier element. -/
lemma find_best_match_spec_pos (l : List ℚ)
    (h : (find_best_match l).1 ≠ -1) :
    ∃ j o, l.get? j = some o ∧ (find_best_match l).1 = (j : Int) ∧
      (find_best_match l).2 = o ∧ 0 < o ∧ (∀ x ∈ l, x ≤ o) ∧
      ∀ k x, k < j → l.get? k = some x → x < o := by
  rcases fbmLoop_spec l 0 (-1) 0 with ⟨heq, _⟩ |
    ⟨j, o, hget, heq, hlt, hmax, hbefore⟩
  · exact absurd (by rw [show find_best_match l = fbmLoop 0 (-1) 0 l from rfl,
      heq]) h
  · refine ⟨j, o, hget, ?_, ?_, hlt, hmax, hbefore⟩
    · rw [show find_best_match l = fbmLoop 0 (-1) 0 l from rfl, heq]
      simp
    · rw [show find_best_match l = fbmLoop 0 (-1) 0 l from rfl, heq]

/-! ### Properties of the fallback orchestrator -/

/-- The per-sample trace of Detector invocations is `[primary]` when stage 1
matches and `[primary, enhanced]` otherwise. -/
lemma executePipeline_trace (det : Variant → List DBox) :
    (executePipeline det).2 = [.primary] ∨
      (executePipeline det).2 = [.primary, .enhanced] := by
  unfold executePipeline
  dsimp only
  split_ifs <;> simp

/-- The reported `method` is the first stage, in source order, whose matcher
yields a box; `Stage.none` when all four fail. -/
lemma executePipeline_method (det : Variant → List DBox) :
    (executePipeline det).1.method =
      ((stageList.find? (stageSucceeds det)).getD .none) := by
  unfold executePipeline stageList
  dsimp only
  by_cases h1 : (find_best_match (narrowOverlaps (det .primary))).1 = -1 <;>
    by_cases h2 : (find_best_match (narrowOverlaps (det .enhanced))).1 = -1 <;>
      by_cases h3 : (find_best_match (wideOverlaps (det .primary))).1 = -1 <;>
        by_cases h4 : (find_best_match (wideOverlaps (det .enhanced))).1 = -1 <;>
          simp [stageSucceeds, List.find?, h1, h2, h3, h4]

/-! ### Claim theorems -/

/-- C1: every candidate surviving the three filters is scored
`overlapArea * (1 + min(polygonArea / 10000, 0.5)) * confidence` and the
selector returns a survivor of maximal score; the single candidate with
overlap 2000 px², polygon area 3000 px² and confidence 0.9 gets size bonus
0.3 and score 2340 and is selected. -/
theorem find_best_panel_score_and_selection :
    (∀ (polys : List PanelPoly) (radius minOverlap : ℚ) (b : PanelPoly),
        (find_best_panel polys radius minOverlap).1 = some b →
          b ∈ polys.filter (keepsPanel radius minOverlap) ∧
          panelScore b =
            b.overlap * (1 + min (b.area / 10000) (1 / 2)) * b.conf ∧
          ∀ c ∈ polys.filter (keepsPanel radius minOverlap),
            panelScore c ≤ panelScore b) ∧
    ((find_best_panel [⟨true, 2000, 0, 3000, 9 / 10⟩] 100 10).1 =
        some ⟨true, 2000, 0, 3000, 9 / 10⟩ ∧
      min ((3000 : ℚ) / 10000) (1 / 2) = 3 / 10 ∧
      panelScore ⟨true, 2000, 0, 3000, 9 / 10⟩ = 2340) := by
  constructor
  · intro polys radius minOverlap b h
    obtain ⟨hmem, hmax, _⟩ := find_best_panel_spec h
    exact ⟨hmem, rfl, hmax⟩
  · refine ⟨?_, by norm_num, by norm_num [panelScore]⟩
    norm_num [find_best_panel, sortCandidates, keepsPanel, List.filter,
      List.insertionSort, List.orderedInsert]

/-- Witness for C1 at the worked selection example. -/
theorem find_best_panel_score_and_selection_witness :
    (find_best_panel [⟨true, 2000, 0, 3000, 9 / 10⟩] 100 10).1 =
        some ⟨true, 2000, 0, 3000, 9 / 10⟩ ∧
      (⟨true, 2000, 0, 3000, 9 / 10⟩ : PanelPoly) ∈
        List.filter (keepsPanel 100 10) [⟨true, 2000, 0, 3000, 9 / 10⟩] := by
  have h : (find_best_panel [⟨true, 2000, 0, 3000, 9 / 10⟩] 100 10).1 =
      some ⟨true, 2000, 0, 3000, 9 / 10⟩ := by
    norm_num [find_best_panel, sortCandidates, keepsPanel, List.filter,
      List.insertionSort, List.orderedInsert]
  exact ⟨h,
    (find_best_panel_score_and_selection.1 _ 100 10 _ h).1⟩

/-- C3: a selected candidate always has centroid distance at most 1.5 times
the buffer radius, so any candidate whose centroid lies at twice the radius
(with a positive radius) is never the selected one, regardless of its
overlap. -/
theorem centroid_distance_rejection :
    (∀ (polys : List PanelPoly) (radius minOverlap : ℚ) (b : PanelPoly),
        (find_best_panel polys radius minOverlap).1 = some b →
          b.centroidDist ≤ radius * 1.5) ∧
    (∀ (polys : List PanelPoly) (radius minOverlap : ℚ) (p : PanelPoly),
        0 < radius → p ∈ polys → p.centroidDist = 2 * radius →
          (find_best_panel polys radius minOverlap).1 ≠ some p) := by
  have key : ∀ (polys : List PanelPoly) (radius minOverlap : ℚ)
      (b : PanelPoly), (find_best_panel polys radius minOverlap).1 = some b →
        b.centroidDist ≤ radius * 1.5 := by
    intro polys radius minOverlap b h
    obtain ⟨hmem, _, _⟩ := find_best_panel_spec h
    exact (keepsPanel_iff.1 (List.mem_filter.1 hmem).2).2.2
  refine ⟨key, ?_⟩
  intro polys radius minOverlap p hr _ hdist hsel
  have h := key polys radius minOverlap p hsel
  rw [hdist] at h
  nlinarith

/-- Witness for C3: with radius 100, a candidate whose centroid distance is
200 = 2 × radius is rejected (a nearer candidate is selected instead), and
the selected candidate indeed satisfies the centroid bound. -/
theorem centroid_distance_rejection_witness :
    (find_best_panel
        [⟨true, 2000, 200, 3000, 9 / 10⟩, ⟨true, 50, 0, 100, 1 / 2⟩]
        100 10).1 = some ⟨true, 50, 0, 100, 1 / 2⟩ ∧
    (find_best_panel
        [⟨true, 2000, 200, 3000, 9 / 10⟩, ⟨true, 50, 0, 100, 1 / 2⟩]
        100 10).1 ≠ some ⟨true, 2000, 200, 3000, 9 / 10⟩ ∧
    (⟨true, 50, 0, 100, 1 / 2⟩ : PanelPoly).centroidDist ≤ 100 * 1.5 := by
  have h : (find_best_panel
      [⟨true, 2000, 200, 3000, 9 / 10⟩, ⟨true, 50, 0, 100, 1 / 2⟩]
      100 10).1 = some ⟨true, 50, 0, 100, 1 / 2⟩ := by
    norm_num [find_best_panel, sortCandidates, keepsPanel, List.filter,
      List.insertionSort, List.orderedInsert]
  refine ⟨h, ?_, ?_⟩
  · exact centroid_distance_rejection.2 _ 100 10 _ (by norm_num)
      (by simp) (by norm_num)
  · exact centroid_distance_rejection.1 _ 100 10 _ h

/-- C4: selection is deterministic and stable.  In the scoring selector the
returned candidate has maximal score among the survivors and every survivor
listed before it scores strictly less (so equal-score ties resolve to the
earliest candidate); in the max-overlap matcher the returned index addresses
a maximal-overlap box and every earlier box has strictly smaller overlap. -/
theorem tie_break_stable :
    (∀ (polys : List PanelPoly) (radius minOverlap : ℚ) (b : PanelPoly),
        (find_best_panel polys radius minOverlap).1 = some b →
          (∀ c ∈ polys.filter (keepsPanel radius minOverlap),
              panelScore c ≤ panelScore b) ∧
          ∃ pre post,
            polys.filter (keepsPanel radius minOverlap) = pre ++ b :: post ∧
            ∀ x ∈ pre, panelScore x < panelScore b) ∧
    (∀ l : List ℚ, (find_best_match l).1 ≠ -1 →
        ∃ j o, l.get? j = some o ∧ (find_best_match l).1 = (j : Int) ∧
          (∀ x ∈ l, x ≤ o) ∧
          ∀ k x, k < j → l.get? k = some x → x < o) := by
  constructor
  · intro polys radius minOverlap b h
    obtain ⟨_, hmax, hsplit⟩ := find_best_panel_spec h
    exact ⟨hmax, hsplit⟩
  · intro l h
    obtain ⟨j, o, hget, hidx, _, _, hmax, hbefore⟩ :=
      find_best_match_spec_pos l h
    exact ⟨j, o, hget, hidx, hmax, hbefore⟩

/-- Witness for C4: two distinct candidates with identical score 55; the
earlier one is returned and scores at least as high as every survivor. -/
theorem tie_break_stable_witness :
    (find_best_panel
        [⟨true, 100, 0, 1000, 1 / 2⟩, ⟨true, 100, 5, 1000, 1 / 2⟩]
        100 10).1 = some ⟨true, 100, 0, 1000, 1 / 2⟩ ∧
    panelScore ⟨true, 100, 0, 1000, 1 / 2⟩ =
      panelScore ⟨true, 100, 5, 1000, 1 / 2⟩ ∧
    ∀ c ∈ List.filter (keepsPanel 100 10)
        [⟨true, 100, 0, 1000, 1 / 2⟩, ⟨true, 100, 5, 1000, 1 / 2⟩],
      panelScore c ≤ panelScore ⟨true, 100, 0, 1000, 1 / 2⟩ := by
  have h : (find_best_panel
      [⟨true, 100, 0, 1000, 1 / 2⟩, ⟨true, 100, 5, 1000, 1 / 2⟩]
      100 10).1 = some ⟨true, 100, 0, 1000, 1 / 2⟩ := by
    norm_num [find_best_panel, sortCandidates, keepsPanel, panelScore,
      List.filter, List.insertionSort, List.orderedInsert]
  exact ⟨h, by norm_num [panelScore],
    (tie_break_stable.1 _ 100 10 _ h).1⟩

/-- C2: the orchestrator evaluates the stages in the fixed order
original/narrow, enhanced/narrow, original/wide, enhanced/wide; the result's
`method` is the identifier of the first stage whose matcher succeeds
(`Stage.none` when all fail); and when stage 1 succeeds the run stops there
— in particular the enhanced-image Detector call is never made. -/
theorem pipeline_stage_order (det : Variant → List DBox) :
    (executePipeline det).1.method =
      ((stageList.find? (stageSucceeds det)).getD .none) ∧
    (stageSucceeds det .initial1200 = true →
      (executePipeline det).2 = [.primary]) := by
  refine ⟨executePipeline_method det, ?_⟩
  intro h
  simp only [stageSucceeds, decide_eq_true_eq] at h
  unfold executePipeline
  dsimp only
  rw [if_pos h]

/-- Witness for C2: a detector whose single box overlaps the narrow disk
makes stage 1 succeed, and the trace indeed contains only the primary call. -/
theorem pipeline_stage_order_witness :
    stageSucceeds (fun _ => [⟨5, 5⟩]) .initial1200 = true ∧
    (executePipeline (fun _ => [⟨5, 5⟩])).2 = [.primary] := by
  have h : stageSucceeds (fun _ => [⟨5, 5⟩]) .initial1200 = true := by
    norm_num [stageSucceeds, find_best_match, fbmLoop, narrowOverlaps]
  exact ⟨h, (pipeline_stage_order (fun _ => [⟨5, 5⟩])).2 h⟩

/-- C5: per sample, the Detector is invoked at most once per image variant
and at most twice in total — not once per stage. -/
theorem detector_calls_bounded (det : Variant → List DBox) :
    (executePipeline det).2.count .primary ≤ 1 ∧
    (executePipeline det).2.count .enhanced ≤ 1 ∧
    (executePipeline det).2.length ≤ 2 := by
  rcases executePipeline_trace det with h | h <;> rw [h] <;>
    exact ⟨by decide, by decide, by decide⟩

/-- C7 as stated is false: `_predict` and `_execute_pipeline` install no
exception handler, so a failing Detector call aborts the whole per-sample
computation with that error instead of being treated as an empty candidate
set.  Concretely, a detector that always raises makes the pipeline return
the error, while a detector that returns no boxes would have produced the
well-formed exhausted result. -/
theorem detector_failure_aborts_counterexample :
    executePipelineE (fun _ => (.error () : Except Unit (List DBox))) =
      .error () ∧
    (executePipeline (fun _ => [])).1.method = Stage.none ∧
    (executePipeline (fun _ => [])).1.hasSolar = false := by
  exact ⟨rfl, by decide, by decide⟩

/-- C7 amended: a Detector failure propagates — if the primary-variant call
fails the pipeline returns that error at once, and if the primary call
returns boxes but stage 1 finds no match and the enhanced-variant call
fails, the pipeline likewise returns that error; no stage-level recovery
exists. -/
theorem detector_failure_aborts {ε : Type}
    (det : Variant → Except ε (List DBox)) :
    (∀ e, det .primary = .error e → executePipelineE det = .error e) ∧
    (∀ boxes e, det .primary = .ok boxes →
      (find_best_match (narrowOverlaps boxes)).1 = -1 →
      det .enhanced = .error e → executePipelineE det = .error e) := by
  constructor
  · intro e h
    unfold executePipelineE
    rw [h]
  · intro boxes e h1 h2 h3
    unfold executePipelineE
    rw [h1]
    dsimp only
    rw [if_neg (by simp [h2]), h3]

/-- Witness for C7's amended claim: a detector that succeeds with no boxes
on the original image and fails on the enhanced one aborts the pipeline. -/
theorem detector_failure_aborts_witness :
    (fun v => match v with
      | Variant.primary => (.ok [] : Except Unit (List DBox))
      | Variant.enhanced => .error ()) Variant.primary = .ok [] ∧
    (find_best_match (narrowOverlaps [])).1 = -1 ∧
    executePipelineE (fun v => match v with
      | Variant.primary => (.ok [] : Except Unit (List DBox))
      | Variant.enhanced => .error ()) = .error () := by
  refine ⟨rfl, by decide, ?_⟩
  exact (detector_failure_aborts _).2 [] () rfl (by decide) rfl

/-- C8 as universally stated is false: with a zero minimum-overlap threshold
a degenerate candidate of zero polygon area (a collinear polygon touching
the disk, centroid at the center, zero intersection area) survives every
filter and is selected. -/
theorem selected_area_positive_counterexample :
    (find_best_panel [⟨true, 0, 0, 0, 1 / 2⟩] 10 0).1 =
      some ⟨true, 0, 0, 0, 1 / 2⟩ ∧
    ¬ 0 < (⟨true, 0, 0, 0, 1 / 2⟩ : PanelPoly).area := by
  constructor
  · norm_num [find_best_panel, sortCandidates, keepsPanel, List.filter,
      List.insertionSort, List.orderedInsert]
  · norm_num

/-- C8 amended: when the minimum-overlap threshold is positive, any selected
candidate has strictly positive polygon area (using the geometric fact that
a polygon's intersection with the disk is at most the polygon's area). -/
theorem selected_area_positive (polys : List PanelPoly)
    (radius minOverlap : ℚ) (b : PanelPoly) (hmo : 0 < minOverlap)
    (hgeom : ∀ p ∈ polys, p.overlap ≤ p.area)
    (h : (find_best_panel polys radius minOverlap).1 = some b) :
    0 < b.area := by
  obtain ⟨hmem, _, _⟩ := find_best_panel_spec h
  obtain ⟨hmem', hk⟩ := List.mem_filter.1 hmem
  have hov := (keepsPanel_iff.1 hk).2.1
  exact lt_of_lt_of_le (lt_of_lt_of_le hmo hov) (hgeom b hmem')

/-- Witness for C8's amended claim at a concrete selection. -/
theorem selected_area_positive_witness :
    (0 : ℚ) < 10 ∧
    (find_best_panel [⟨true, 2000, 0, 3000, 9 / 10⟩] 100 10).1 =
      some ⟨true, 2000, 0, 3000, 9 / 10⟩ ∧
    0 < (⟨true, 2000, 0, 3000, 9 / 10⟩ : PanelPoly).area := by
  have h : (find_best_panel [⟨true, 2000, 0, 3000, 9 / 10⟩] 100 10).1 =
      some ⟨true, 2000, 0, 3000, 9 / 10⟩ := by
    norm_num [find_best_panel, sortCandidates, keepsPanel, List.filter,
      List.insertionSort, List.orderedInsert]
  exact ⟨by norm_num, h,
    selected_area_positive _ 100 10 _ (by norm_num)
      (by intro p hp; simp at hp; subst hp; norm_num) h⟩

/-- C10: the per-stage matcher of the four-stage variant yields a match
exactly when some box has strictly positive intersection area with the
buffer disk — no minimum-overlap threshold, centroid bound, size bonus or
confidence weighting is applied, so any sliver of overlap counts — and the
returned index addresses a box of maximal intersection area, with the
returned maximum as its overlap value. -/
theorem find_best_match_characterisation :
    (∀ l : List ℚ, (find_best_match l).1 ≠ -1 ↔ ∃ o ∈ l, 0 < o) ∧
    (∀ l : List ℚ, (find_best_match l).1 ≠ -1 →
      ∃ j o, l.get? j = some o ∧ (find_best_match l).1 = (j : Int) ∧
        (find_best_match l).2 = o ∧ ∀ x ∈ l, x ≤ o) := by
  constructor
  · intro l
    constructor
    · intro h
      by_contra hno
      push_neg at hno
      exact h ((find_best_match_eq_neg_one_iff l).2 fun o ho => hno o ho)
    · rintro ⟨o, ho, hpos⟩ h1
      exact absurd ((find_best_match_eq_neg_one_iff l).1 h1 o ho)
        (not_le.2 hpos)
  · intro l h
    obtain ⟨j, o, hget, hidx, hval, _, hmax, _⟩ :=
      find_best_match_spec_pos l h
    exact ⟨j, o, hget, hidx, hval, hmax⟩

/-- Witness for C10: a sliver overlap of 1/1000 px² counts as a match. -/
theorem find_best_match_characterisation_witness :
    ((1 : ℚ) / 1000 ∈ [(0 : ℚ), 1 / 1000] ∧ (0 : ℚ) < 1 / 1000) ∧
    (find_best_match [0, 1 / 1000]).1 ≠ -1 :=
  ⟨⟨by norm_num, by norm_num⟩,
    (find_best_match_characterisation.1 [0, 1 / 1000]).2
      ⟨1 / 1000, by norm_num, by norm_num⟩⟩

/-! ### Ground-resolution arithmetic at the worked example -/

/-- Radian value of the example latitude, bracketed using the six-digit
bounds on pi. -/
lemma worked_lat_bounds :
    0.41728 < (23.9085 : ℝ) * Real.pi / 180 ∧
      (23.9085 : ℝ) * Real.pi / 180 < 0.41729 := by
  constructor <;> nlinarith [Real.pi_gt_d6, Real.pi_lt_d6]

/-- Bracketing of the cosine at the example latitude via the quartic
Taylor bound. -/
lemma worked_cos_bounds :
    0.91135 < Real.cos ((23.9085 : ℝ) * Real.pi / 180) ∧
      Real.cos ((23.9085 : ℝ) * Real.pi / 180) < 0.91452 := by
  obtain ⟨hlo, hhi⟩ := worked_lat_bounds
  set x : ℝ := (23.9085 : ℝ) * Real.pi / 180 with hx
  have hxpos : 0 < x := by linarith
  have habs : |x| ≤ 1 := abs_le.2 ⟨by linarith, by linarith⟩
  have hcb := Real.cos_bound habs
  rw [abs_of_pos hxpos] at hcb
  have h1 : Real.cos x - (1 - x ^ 2 / 2) ≤ x ^ 4 * (5 / 96) :=
    (abs_le.1 hcb).2
  have h2 : -(x ^ 4 * (5 / 96)) ≤ Real.cos x - (1 - x ^ 2 / 2) :=
    (abs_le.1 hcb).1
  have hx2hi : x ^ 2 < 0.1741310 := by nlinarith
  have hx2lo : 0.1741225 < x ^ 2 := by nlinarith
  have hx4hi : x ^ 4 < 0.0303217 := by nlinarith [hx2hi, hx2lo]
  have hx4pos : 0 < x ^ 4 := by positivity
  constructor <;> nlinarith [hx4hi, hx2hi, hx2lo, h1, h2, hx4pos]

/-- The example ground resolution written over a single denominator. -/
lemma worked_mpp_eq :
    get_meters_per_pixel 23.9085 20 2 =
      156543.03392 * Real.cos ((23.9085 : ℝ) * Real.pi / 180) / 2097152 := by
  unfold get_meters_per_pixel
  rw [show ((2 : ℝ) ^ (20 : ℕ)) = 1048576 by norm_num, div_div]
  norm_num

/-- Bracketing of the ground resolution the code computes at
latitude 23.9085, zoom 20, scale 2. -/
lemma worked_mpp_bounds :
    0.06802 < get_meters_per_pixel 23.9085 20 2 ∧
      get_meters_per_pixel 23.9085 20 2 < 0.06827 := by
  obtain ⟨hlo, hhi⟩ := worked_cos_bounds
  rw [worked_mpp_eq]
  constructor <;> nlinarith

/-- Bracketing of the equivalent-disk radius in meters for the 1200 sq.ft
buffer. -/
lemma worked_radius_m_bounds :
    5.957 < Real.sqrt (1200 * 0.092903 / Real.pi) ∧
      Real.sqrt (1200 * 0.092903 / Real.pi) < 5.9572 := by
  have hpi_pos := Real.pi_pos
  have harg_lo : 35.485849 < (1200 : ℝ) * 0.092903 / Real.pi := by
    rw [lt_div_iff hpi_pos]
    nlinarith [Real.pi_lt_d6]
  have harg_hi : (1200 : ℝ) * 0.092903 / Real.pi < 35.4882318 := by
    rw [div_lt_iff hpi_pos]
    nlinarith [Real.pi_gt_d6]
  constructor
  · rw [Real.lt_sqrt (by norm_num : (0 : ℝ) ≤ 5.957)]
    nlinarith
  · rw [Real.sqrt_lt' (by norm_num : (0 : ℝ) < 5.9572)]
    nlinarith

/-- Bracketing of the buffer radius in pixels the code computes for the
worked example. -/
lemma worked_radius_px_bounds :
    87.25 < buffer_radius_to_pixels 1200 0.092903 23.9085 20 2 ∧
      buffer_radius_to_pixels 1200 0.092903 23.9085 20 2 < 87.6 := by
  obtain ⟨hm_lo, hm_hi⟩ := worked_mpp_bounds
  obtain ⟨hs_lo, hs_hi⟩ := worked_radius_m_bounds
  have hmpos : 0 < get_meters_per_pixel 23.9085 20 2 := by linarith
  unfold buffer_radius_to_pixels
  constructor
  · rw [lt_div_iff hmpos]
    nlinarith
  · rw [div_lt_iff hmpos]
    nlinarith

/-- C6 as stated is false: neither implementation checks for the poles.  At
latitude 90 the functions return a zero ground resolution instead of failing
with a DomainError. -/
theorem meters_per_pixel_pole_counterexample :
    get_meters_per_pixel 90 20 2 = 0 ∧
      calculate_meters_per_pixel 90 20 2 = 0 := by
  unfold get_meters_per_pixel calculate_meters_per_pixel
  rw [show (90 : ℝ) * Real.pi / 180 = Real.pi / 2 by ring,
    Real.cos_pi_div_two]
  norm_num

/-- C6 amended: `metersPerPixel` is total and performs no domain check — for
every latitude (poles included) it returns
`156543.03392 * cos(lat_rad) / 2 ^ zoom / scale`, the two implementations
agree everywhere, and at the poles that value is the zero resolution rather
than an error. -/
theorem meters_per_pixel_total :
    (∀ (lat : ℝ) (zoom : ℕ) (scale : ℝ),
        get_meters_per_pixel lat zoom scale =
          156543.03392 * Real.cos (lat * Real.pi / 180) / 2 ^ zoom / scale ∧
        calculate_meters_per_pixel lat zoom scale =
          get_meters_per_pixel lat zoom scale) ∧
    ∀ (zoom : ℕ) (scale : ℝ), get_meters_per_pixel 90 zoom scale = 0 := by
  refine ⟨fun lat zoom scale => ⟨rfl, rfl⟩, ?_⟩
  intro zoom scale
  unfold get_meters_per_pixel
  rw [show (90 : ℝ) * Real.pi / 180 = Real.pi / 2 by ring,
    Real.cos_pi_div_two]
  norm_num

/-- C9 as stated is false: at latitude 23.9085, zoom 20, scale 2 the code's
ground resolution is below 0.08 m/px (so not approximately 0.1364) and the
1200 sq.ft buffer radius exceeds 79 px (so not approximately 43.66); the
`utils.py` conversion path computes exactly the same radius. -/
theorem worked_example_counterexample :
    get_meters_per_pixel 23.9085 20 2 < 0.08 ∧
    79 < buffer_radius_to_pixels 1200 0.092903 23.9085 20 2 ∧
    calculate_radius_from_area_sqft 1200
        (calculate_meters_per_pixel 23.9085 20 2) =
      buffer_radius_to_pixels 1200 0.092903 23.9085 20 2 := by
  refine ⟨?_, ?_, rfl⟩
  · have h := worked_mpp_bounds.2
    linarith
  · have h := worked_radius_px_bounds.1
    linarith

/-- C9 amended: at latitude 23.9085, zoom 20, scale 2 the code computes a
ground resolution of about 0.0682 m/px (the spec's 0.1364 is this value
before the division by scale = 2), the 1200 sq.ft buffer is exactly
111.4836 m², its equivalent-disk radius is about 5.957 m, and the buffer
radius in pixels is about 87.3 (twice the claimed 43.66). -/
theorem worked_example_corrected :
    (1200 : ℝ) * 0.092903 = 111.4836 ∧
    (0.06802 < get_meters_per_pixel 23.9085 20 2 ∧
      get_meters_per_pixel 23.9085 20 2 < 0.06827) ∧
    (0.136 < 2 * get_meters_per_pixel 23.9085 20 2 ∧
      2 * get_meters_per_pixel 23.9085 20 2 < 0.1366) ∧
    (5.957 < Real.sqrt (1200 * 0.092903 / Real.pi) ∧
      Real.sqrt (1200 * 0.092903 / Real.pi) < 5.9572) ∧
    (87.25 < buffer_radius_to_pixels 1200 0.092903 23.9085 20 2 ∧
      buffer_radius_to_pixels 1200 0.092903 23.9085 20 2 < 87.6) := by
  obtain ⟨hm_lo, hm_hi⟩ := worked_mpp_bounds
  exact ⟨by norm_num, ⟨hm_lo, hm_hi⟩, ⟨by linarith, by linarith⟩,
    worked_radius_m_bounds, worked_radius_px_bounds⟩
